import Mathlib

/-!
Verification of the arch-sparring-agent core against its specification.

The development shallowly embeds the deterministic core of the repository:

* `context_condenser.py` — the size-policy wrapper around the LLM extraction
  call (`_extract`) and its chunked fallback (`_chunked_extract`).  The LLM
  call itself is modelled as an opaque function
  `Model : prompt → input → Except PyErr output`; the embedding threads an
  explicit count of model invocations so that "zero model calls" style
  properties are statable.
* `state.py` — the heuristic finding parser (`_extract_gaps`,
  `_extract_risks`, `_extract_recommendations`, `_extract_verdict`) together
  with its helpers (`_infer_severity`, `_is_duplicate`).
* `cli.py` — the verdict/exit-code resolver (`_extract_verdict` of the CLI
  module, embedded as `extract_verdict_cli`).

Python strings are embedded as `List Char`; the Python string operations
used by the source (`lower`, `strip`, `lstrip`, `split`, `in`, slicing,
`startswith`) are given faithful executable counterparts below.
-/

/-! ### Python string primitives -/

/-- The characters Python's `str.strip()` removes (ASCII whitespace). -/
def isPySpace (c : Char) : Bool :=
  c = ' ' || c = '\t' || c = '\n' || c = '\r' || c = '\x0b' || c = '\x0c'

/-- Embedding of Python `str.lower()` (ASCII inputs). -/
def pyLower (s : List Char) : List Char := s.map Char.toLower

/-- Embedding of Python `str.strip()`: drop leading and trailing whitespace. -/
def pyStrip (s : List Char) : List Char :=
  ((s.dropWhile isPySpace).reverse.dropWhile isPySpace).reverse

/-- Embedding of Python `str.lstrip(chars)`: drop leading characters that
belong to `chars`. -/
def pyLstrip (chars : List Char) (s : List Char) : List Char :=
  s.dropWhile (fun c => chars.contains c)

/-- Embedding of Python `sub in s` (substring containment). -/
def isSubstr (needle : List Char) : List Char → Bool
  | [] => needle.isEmpty
  | c :: rest => needle.isPrefixOf (c :: rest) || isSubstr needle rest

/-- The suffix of `s` strictly after the last occurrence of `sep`, if `sep`
occurs in `s` at all. -/
def afterLast (sep : List Char) : List Char → Option (List Char)
  | [] => none
  | c :: rest =>
      match afterLast sep rest with
      | some r => some r
      | none =>
          if sep.isPrefixOf (c :: rest) then some ((c :: rest).drop sep.length)
          else none

/-- Embedding of Python `s.split(sep)[-1]` for a separator (such as
`"verdict"`) that cannot overlap itself: the suffix after the last
occurrence of `sep`, or `s` itself when `sep` does not occur. -/
def pySplitLastAfter (sep s : List Char) : List Char :=
  (afterLast sep s).getD s

/-- Embedding of Python `s.split("\n")`: split on every newline, keeping
empty pieces (so `"".split("\n") == [""]`). -/
def splitLines : List Char → List (List Char)
  | [] => [[]]
  | c :: rest =>
      let r := splitLines rest
      if c = '\n' then [] :: r
      else
        match r with
        | [] => [[c]]
        | h :: t => (c :: h) :: t

/-! ### Condenser embedding (`context_condenser.py`) -/

/-- The exceptions distinguished by `_extract` in `context_condenser.py`:
`ContextWindowOverflowException`, `MaxTokensReachedException`, botocore's
`ClientError` (carrying its error code), and any other exception. -/
inductive PyErr where
  | contextWindowOverflow
  | maxTokensReached
  | clientError (code : List Char)
  | other (msg : List Char)
deriving DecidableEq

deriving instance DecidableEq for Except

/-- An opaque LLM agent invocation: system prompt and input text to either
an output text or a raised exception.  One `Agent(...)` construction plus
call in the source is one application of this function. -/
abbrev Model : Type := List Char → List Char → Except PyErr (List Char)

/-- The tuning constants of `config.py` consumed by the condenser
(`CONDENSER_PASSTHROUGH_THRESHOLD`, `CONDENSER_CHUNK_SIZE`,
`CONDENSER_MAX_CHUNKS`). -/
structure CondenserConfig where
  passthroughThreshold : Nat
  chunkSize : Nat
  maxChunks : Nat

/-- The defaults from `config.py`: threshold 2000, chunk size 8000, at most
5 chunks. -/
def defaultCondenserConfig : CondenserConfig :=
  { passthroughThreshold := 2000, chunkSize := 8000, maxChunks := 5 }

/-- The error codes `_extract` treats as size-related on a `ClientError`. -/
def sizeErrorCodes : List (List Char) :=
  ["ValidationException".toList, "ModelErrorException".toList]

/-- Which exceptions `_extract` absorbs into the chunked fallback:
the two overflow exceptions, and a `ClientError` whose code is
`ValidationException` or `ModelErrorException`. -/
def isSizeRelated : PyErr → Bool
  | PyErr.contextWindowOverflow => true
  | PyErr.maxTokensReached => true
  | PyErr.clientError code => decide (code ∈ sizeErrorCodes)
  | PyErr.other _ => false

/-- Worker for `chunkList`, structurally recursive on a fuel argument so
that the definition computes by reduction; the fuel is initialised to the
content length, which suffices because every step consumes at least one
character. -/
def chunkListGo (cs : Nat) : Nat → List Char → List (List Char)
  | _, [] => []
  | 0, _ :: _ => []
  | fuel + 1, c :: rest => ((c :: rest).take cs) :: chunkListGo cs fuel (rest.drop (cs - 1))

/-- Embedding of `[content[i : i + CHUNK_SIZE] for i in range(0, len(content),
CHUNK_SIZE)]` (for a positive chunk size, as in the source defaults; Python
raises on a zero step). -/
def chunkList (cs : Nat) (content : List Char) : List (List Char) :=
  chunkListGo cs content.length content

/-- The placeholder `_chunked_extract` substitutes for a chunk whose
extraction call raised: `f"[Chunk {i + 1} could not be processed]"`. -/
def placeholderText (n : Nat) : List Char :=
  "[Chunk ".toList ++ (Nat.repr n).toList ++ " could not be processed]".toList

/-- The per-chunk loop body of `_chunked_extract`: call the extractor on each
chunk in order, replacing a failed chunk by its placeholder.  `base` is the
0-based index of the first chunk of the argument list (the loop enumerates
from 0). -/
def chunkResultsFrom (m : Model) (sysPrompt : List Char) (base : Nat) :
    List (List Char) → List (List Char)
  | [] => []
  | chunk :: rest =>
      (match m sysPrompt chunk with
       | Except.ok r => r
       | Except.error _ => placeholderText (base + 1)) ::
        chunkResultsFrom m sysPrompt (base + 1) rest

/-- Embedding of Python `sep.join(xs)`. -/
def joinSep (sep : List Char) : List (List Char) → List Char
  | [] => []
  | [x] => x
  | x :: y :: rest => x ++ sep ++ joinSep sep (y :: rest)

/-- The separator `"\n\n"` used by `_chunked_extract` to combine chunk
results. -/
def sepNN : List Char := ['\n', '\n']

/-- The chunks `_chunked_extract` actually processes: the fixed-size chunks
of the content, capped at `MAX_CHUNKS` (`chunks[:MAX_CHUNKS]`). -/
def condenserChunks (cfg : CondenserConfig) (content : List Char) :
    List (List Char) :=
  (chunkList cfg.chunkSize content).take cfg.maxChunks

/-- The `combined` value of `_chunked_extract`:
`"\n\n".join(chunk_results)`. -/
def condenserCombined (cfg : CondenserConfig) (m : Model)
    (sysPrompt content : List Char) : List Char :=
  joinSep sepNN (chunkResultsFrom m sysPrompt 0 (condenserChunks cfg content))

/-- The system prompt of the `FindingsMerger` agent in `_chunked_extract`. -/
def mergeInstructions : List Char :=
  ("Merge these extracted findings into a single deduplicated list. " ++
   "Remove duplicates. Keep every unique item. Use the same format as the input.").toList

/-- Embedding of `_chunked_extract`.  Returns the produced text together with
the number of model invocations performed (per-chunk calls plus the merge
call when it happens).  Faithful to the source: a failed chunk call becomes a
placeholder, the combined results are returned directly when small enough,
and a failed merge call falls back to the raw concatenation. -/
def chunked_extract (cfg : CondenserConfig) (m : Model)
    (sysPrompt content : List Char) : List Char × Nat :=
  let chunks := condenserChunks cfg content
  let combined := condenserCombined cfg m sysPrompt content
  if combined.length ≤ cfg.passthroughThreshold then
    (combined, chunks.length)
  else
    match m mergeInstructions combined with
    | Except.ok merged => (merged, chunks.length + 1)
    | Except.error _ => (combined, chunks.length + 1)

/-- Embedding of `_extract`: passthrough below the threshold (no model
call), otherwise a single extraction call, falling back to
`_chunked_extract` exactly on the recognized size-related exceptions and
re-raising every other exception unchanged.  The second component counts
model invocations. -/
def extract (cfg : CondenserConfig) (m : Model) (sysPrompt content : List Char) :
    Except PyErr (List Char) × Nat :=
  if content.length ≤ cfg.passthroughThreshold then
    (Except.ok content, 0)
  else
    match m sysPrompt content with
    | Except.ok out => (Except.ok out, 1)
    | Except.error PyErr.contextWindowOverflow =>
        (Except.ok (chunked_extract cfg m sysPrompt content).1,
         1 + (chunked_extract cfg m sysPrompt content).2)
    | Except.error PyErr.maxTokensReached =>
        (Except.ok (chunked_extract cfg m sysPrompt content).1,
         1 + (chunked_extract cfg m sysPrompt content).2)
    | Except.error (PyErr.clientError code) =>
        if code ∈ sizeErrorCodes then
          (Except.ok (chunked_extract cfg m sysPrompt content).1,
           1 + (chunked_extract cfg m sysPrompt content).2)
        else (Except.error (PyErr.clientError code), 1)
    | Except.error (PyErr.other msg) => (Except.error (PyErr.other msg), 1)

/-! ### Finding parser embedding (`state.py`) -/

/-- A gap record as built by `_extract_gaps`
(`{"id": f"gap-{gap_id}", "description": ..., "severity": ...}`). -/
structure Gap where
  id : List Char
  description : List Char
  severity : List Char
deriving DecidableEq

/-- A risk record as built by `_extract_risks`
(`{"id": f"risk-{risk_id}", "description": ..., "impact": ...}`). -/
structure Risk where
  id : List Char
  description : List Char
  impact : List Char
deriving DecidableEq

/-- Embedding of `_infer_severity`. -/
def infer_severity (text : List Char) : List Char :=
  let tl := pyLower text
  if isSubstr "critical".toList tl || isSubstr "high".toList tl then "high".toList
  else if isSubstr "low".toList tl || isSubstr "minor".toList tl then "low".toList
  else "medium".toList

/-- Embedding of `_is_duplicate` (applied, as in the source, to the
`description` fields of the already-collected items): the first 50
characters of the candidate occur inside some existing description. -/
def is_duplicate (text : List Char) (descriptions : List (List Char)) : Bool :=
  let pfx := text.take 50
  descriptions.any (fun d => isSubstr pfx d)

/-- The id string `f"gap-{n}"`. -/
def gapTag (n : Nat) : List Char := "gap-".toList ++ (Nat.repr n).toList

/-- The id string `f"risk-{n}"`. -/
def riskTag (n : Nat) : List Char := "risk-".toList ++ (Nat.repr n).toList

/-- `line.lower().strip()`, the `line_lower` of the parser loops. -/
def lineLowerStripped (line : List Char) : List Char := pyStrip (pyLower line)

/-- A line that opens a gaps section:
`"gap" in line_lower and ("##" in line or "key" in line_lower)`. -/
def isGapHeading (line : List Char) : Bool :=
  isSubstr "gap".toList (lineLowerStripped line) &&
    (isSubstr "##".toList line || isSubstr "key".toList (lineLowerStripped line))

/-- A line that opens a risks section:
`"risk" in line_lower and ("##" in line or "top" in line_lower)`. -/
def isRiskHeading (line : List Char) : Bool :=
  isSubstr "risk".toList (lineLowerStripped line) &&
    (isSubstr "##".toList line || isSubstr "top".toList (lineLowerStripped line))

/-- A line that opens a recommendations section:
`"recommendation" in line_lower and "#" in line`. -/
def isRecHeading (line : List Char) : Bool :=
  isSubstr "recommendation".toList (lineLowerStripped line) && isSubstr "#".toList line

/-- A line that opens the "Features Not Found" secondary gap scan:
`"not found" in line.lower() and "#" in line`. -/
def isNotFoundHeading (line : List Char) : Bool :=
  isSubstr "not found".toList (pyLower line) && isSubstr "#".toList line

/-- Loop state of `_extract_gaps`: collected gaps, the running `gap_id`
counter, and the current section flag. -/
structure GapScan where
  gaps : List Gap
  gapId : Nat
  inSection : Bool
deriving DecidableEq

/-- One iteration of the per-line loop of `_extract_gaps` over a source. -/
def gapLineStep (st : GapScan) (line : List Char) : GapScan :=
  if isGapHeading line then { st with inSection := true }
  else if st.inSection && "##".toList.isPrefixOf (pyStrip line) then
    { st with inSection := false }
  else if st.inSection && "-".toList.isPrefixOf (pyStrip line) then
    let gap_text := pyStrip (pyLstrip "-".toList (pyStrip line))
    if gap_text ≠ [] ∧ 5 < gap_text.length then
      let g : Gap := { id := gapTag st.gapId, description := gap_text.take 200,
                       severity := infer_severity gap_text }
      { st with gaps := st.gaps ++ [g], gapId := st.gapId + 1 }
    else st
  else st

/-- One iteration of the "Features Not Found" loop of `_extract_gaps`;
this is the only place the gap scan applies `_is_duplicate`. -/
def notFoundLineStep (st : GapScan) (line : List Char) : GapScan :=
  if isNotFoundHeading line then { st with inSection := true }
  else if st.inSection && "#".toList.isPrefixOf (pyStrip line) then
    { st with inSection := false }
  else if st.inSection && "-".toList.isPrefixOf (pyStrip line) then
    let gap_text := pyStrip (pyLstrip "-".toList (pyStrip line))
    if gap_text ≠ [] ∧ 5 < gap_text.length ∧
        is_duplicate gap_text (st.gaps.map Gap.description) = false then
      let g : Gap := { id := gapTag st.gapId, description := gap_text.take 200,
                       severity := "medium".toList }
      { st with gaps := st.gaps ++ [g], gapId := st.gapId + 1 }
    else st
  else st

/-- Embedding of `_extract_gaps`: scan the review text and the gaps context
in turn with the same rules, then (when the review mentions "not found")
scan the review once more for a "Features Not Found" section, and cap the
result at 20 gaps. -/
def extract_gaps (review_text gaps_context : List Char) : List Gap :=
  let st1 := (splitLines review_text).foldl gapLineStep
      { gaps := [], gapId := 1, inSection := false }
  let st2 := (splitLines gaps_context).foldl gapLineStep { st1 with inSection := false }
  let st3 :=
    if isSubstr "not found".toList (pyLower review_text) then
      (splitLines review_text).foldl notFoundLineStep { st2 with inSection := false }
    else st2
  st3.gaps.take 20

/-- Loop state of `_extract_risks`. -/
structure RiskScan where
  risks : List Risk
  riskId : Nat
  inSection : Bool
deriving DecidableEq

/-- `stripped[0].isdigit()` on a possibly-empty stripped line. -/
def headIsDigit : List Char → Bool
  | [] => false
  | c :: _ => c.isDigit

/-- The character set of `lstrip("0123456789.-) ")`. -/
def riskStripSet : List Char := "0123456789.-) ".toList

/-- One iteration of the per-line loop of `_extract_risks` over a source. -/
def riskLineStep (st : RiskScan) (line : List Char) : RiskScan :=
  if isRiskHeading line then { st with inSection := true }
  else if st.inSection && "##".toList.isPrefixOf (pyStrip line) then
    { st with inSection := false }
  else if st.inSection then
    let stripped := pyStrip line
    if stripped ≠ [] ∧ (headIsDigit stripped || "-".toList.isPrefixOf stripped) = true then
      let risk_text := pyStrip (pyLstrip riskStripSet stripped)
      if risk_text ≠ [] ∧ 10 < risk_text.length ∧
          is_duplicate risk_text (st.risks.map Risk.description) = false then
        let r : Risk := { id := riskTag st.riskId, description := risk_text.take 200,
                          impact := infer_severity risk_text }
        { st with risks := st.risks ++ [r], riskId := st.riskId + 1 }
      else st
    else st
  else st

/-- Embedding of `_extract_risks`: scan review text then risks context with
the same rules (including the `_is_duplicate` check), cap at 10. -/
def extract_risks (review_text risks_context : List Char) : List Risk :=
  let st1 := (splitLines review_text).foldl riskLineStep
      { risks := [], riskId := 1, inSection := false }
  let st2 := (splitLines risks_context).foldl riskLineStep { st1 with inSection := false }
  st2.risks.take 10

/-- Loop state of `_extract_recommendations`. -/
structure RecScan where
  recs : List (List Char)
  inSection : Bool
deriving DecidableEq

/-- One iteration of the per-line loop of `_extract_recommendations`. -/
def recLineStep (st : RecScan) (line : List Char) : RecScan :=
  if isRecHeading line then { st with inSection := true }
  else if st.inSection && "##".toList.isPrefixOf (pyStrip line) then
    { st with inSection := false }
  else if st.inSection then
    let stripped := pyStrip line
    if stripped ≠ [] ∧ (headIsDigit stripped || "-".toList.isPrefixOf stripped) = true then
      let rec_text := pyStrip (pyLstrip riskStripSet stripped)
      if rec_text ≠ [] ∧ 10 < rec_text.length then
        { st with recs := st.recs ++ [rec_text.take 300] }
      else st
    else st
  else st

/-- Embedding of `_extract_recommendations`: single source, min length
filter, truncation to 300 characters, no dedup, cap at 10. -/
def extract_recommendations (review_text : List Char) : List (List Char) :=
  let st := (splitLines review_text).foldl recLineStep { recs := [], inSection := false }
  st.recs.take 10

/-- Embedding of `_extract_verdict` in `state.py`: look 100 characters past
the last occurrence of "verdict" in the lowered text. -/
def extract_verdict (review_text : List Char) : List Char :=
  let review_lower := pyLower review_text
  if isSubstr "verdict".toList review_lower then
    let after_verdict := (pySplitLastAfter "verdict".toList review_lower).take 100
    if isSubstr "fail".toList after_verdict then "FAIL".toList
    else if isSubstr "pass with concerns".toList after_verdict then
      "PASS WITH CONCERNS".toList
    else if isSubstr "pass".toList after_verdict then "PASS".toList
    else "UNKNOWN".toList
  else "UNKNOWN".toList

/-! ### Verdict resolver embedding (`cli.py`) -/

/-- Exit code `EXIT_SUCCESS` of `cli.py`. -/
def EXIT_SUCCESS : Nat := 0

/-- Exit code `EXIT_HIGH_RISK` of `cli.py`. -/
def EXIT_HIGH_RISK : Nat := 1

/-- `"impact: high" in text_lower or "impact high" in text_lower`. -/
def hasHighImpact (text_lower : List Char) : Bool :=
  isSubstr "impact: high".toList text_lower || isSubstr "impact high".toList text_lower

/-- Embedding of `_extract_verdict` in `cli.py`: verdict label plus exit
code, with the strictness escalation on "pass with concerns" and the
content-sniffing fallback when no "verdict" token occurs. -/
def extract_verdict_cli (review_text : List Char) (strict : Bool) : List Char × Nat :=
  let text_lower := pyLower review_text
  let high := hasHighImpact text_lower
  if isSubstr "verdict".toList text_lower then
    let after_verdict := (pySplitLastAfter "verdict".toList text_lower).take 50
    if isSubstr "fail".toList after_verdict then ("FAIL".toList, EXIT_HIGH_RISK)
    else if isSubstr "pass with concerns".toList after_verdict then
      let verdict := if strict && high then "FAIL".toList else "PASS WITH CONCERNS".toList
      (verdict, if verdict = "FAIL".toList then EXIT_HIGH_RISK else EXIT_SUCCESS)
    else ("PASS".toList, EXIT_SUCCESS)
  else
    if isSubstr "critical".toList text_lower || isSubstr "severe".toList text_lower ||
        isSubstr "major vulnerability".toList text_lower then
      ("FAIL".toList, EXIT_HIGH_RISK)
    else if high then
      let verdict := if strict then "FAIL".toList else "PASS WITH CONCERNS".toList
      (verdict, if verdict = "FAIL".toList then EXIT_HIGH_RISK else EXIT_SUCCESS)
    else ("PASS".toList, EXIT_SUCCESS)

/-- The verdict-resolution policy transcribed from the words of spec §4.4
(steps 1 and 2 with exit codes SUCCESS=0 and HIGH_RISK=1), to be compared
with the source embedding `extract_verdict_cli`. -/
def resolve_verdict_spec (review_text : List Char) (strict : Bool) : List Char × Nat :=
  let tl := pyLower review_text
  if isSubstr "verdict".toList tl then
    let window := (pySplitLastAfter "verdict".toList tl).take 50
    if isSubstr "fail".toList window then ("FAIL".toList, 1)
    else if isSubstr "pass with concerns".toList window then
      if strict && hasHighImpact tl then ("FAIL".toList, 1)
      else ("PASS WITH CONCERNS".toList, 0)
    else ("PASS".toList, 0)
  else if isSubstr "critical".toList tl || isSubstr "severe".toList tl ||
      isSubstr "major vulnerability".toList tl then ("FAIL".toList, 1)
  else if hasHighImpact tl then
    if strict then ("FAIL".toList, 1) else ("PASS WITH CONCERNS".toList, 0)
  else ("PASS".toList, 0)

/-! ### Helper lemmas about the condenser -/

/-- The per-chunk loop produces one result per chunk. -/
lemma chunkResultsFrom_length (m : Model) (p : List Char) :
    ∀ (base : Nat) (chunks : List (List Char)),
      (chunkResultsFrom m p base chunks).length = chunks.length := by
  intro base chunks
  induction chunks generalizing base with
  | nil => rfl
  | cons c rest ih => simp [chunkResultsFrom, ih]

/-- The per-chunk loop distributes over list append, shifting the
enumeration base. -/
lemma chunkResultsFrom_append (m : Model) (p : List Char) :
    ∀ (l1 l2 : List (List Char)) (base : Nat),
      chunkResultsFrom m p base (l1 ++ l2) =
        chunkResultsFrom m p base l1 ++ chunkResultsFrom m p (base + l1.length) l2 := by
  intro l1
  induction l1 with
  | nil => intro l2 base; simp [chunkResultsFrom]
  | cons c rest ih =>
      intro l2 base
      have harith : base + 1 + rest.length = base + (rest.length + 1) := by omega
      simp only [List.cons_append, chunkResultsFrom, List.length_cons, List.append_eq]
      rw [ih l2 (base + 1), harith]

/-- Total length of a list of strings. -/
def sumLens (xs : List (List Char)) : Nat := (xs.map List.length).sum

/-- Where an element sits inside a `sep`-join: the element at position
`A.length` starts right after all earlier elements and separators, so the
joined string contains it at a position that grows strictly with its
index. -/
lemma joinSep_decomp (sep v : List Char) :
    ∀ (A B : List (List Char)),
      ∃ pre post, joinSep sep (A ++ v :: B) = pre ++ v ++ post ∧
        pre.length = sumLens A + sep.length * A.length := by
  intro A
  induction A with
  | nil =>
      intro B
      cases B with
      | nil => exact ⟨[], [], by simp [joinSep], by simp [sumLens]⟩
      | cons y t =>
          exact ⟨[], sep ++ joinSep sep (y :: t), by simp [joinSep], by simp [sumLens]⟩
  | cons a A ih =>
      intro B
      obtain ⟨pre, post, heq, hlen⟩ := ih B
      cases hL : A ++ v :: B with
      | nil => simp at hL
      | cons y t =>
          refine ⟨a ++ sep ++ pre, post, ?_, ?_⟩
          · rw [List.cons_append, hL]
            show a ++ sep ++ joinSep sep (y :: t) = a ++ sep ++ pre ++ v ++ post
            rw [← hL, heq]
            simp [List.append_assoc]
          · simp only [List.length_append, hlen, sumLens, List.map_cons, List.sum_cons,
              List.length_cons]
            ring

/-! ### Claim theorems: condenser -/

/-- Claim C2: below or at the passthrough threshold (default 2000) the
condenser returns its input unchanged with zero model calls (hence
re-condensing already-condensed short text is a no-op), and one character
above the threshold at least one extraction model call occurs. -/
theorem condense_passthrough (cfg : CondenserConfig) (m : Model)
    (sysPrompt content : List Char) :
    (content.length ≤ cfg.passthroughThreshold →
      extract cfg m sysPrompt content = (Except.ok content, 0)) ∧
    (content.length = cfg.passthroughThreshold →
      extract cfg m sysPrompt content = (Except.ok content, 0)) ∧
    (content.length = cfg.passthroughThreshold + 1 →
      1 ≤ (extract cfg m sysPrompt content).2) ∧
    defaultCondenserConfig.passthroughThreshold = 2000 := by
  refine ⟨?_, ?_, ?_, rfl⟩
  · intro h; simp [extract, h]
  · intro h; simp [extract, h]
  · intro h
    have hn : ¬ content.length ≤ cfg.passthroughThreshold := by omega
    unfold extract
    rw [if_neg hn]
    cases hm : m sysPrompt content with
    | ok out => exact le_refl 1
    | error e =>
        cases e with
        | contextWindowOverflow => exact Nat.le_add_right 1 _
        | maxTokensReached => exact Nat.le_add_right 1 _
        | clientError code =>
            by_cases hc : code ∈ sizeErrorCodes
            · simp only [hc, if_true, reduceCtorEq]
              omega
            · simp [hc]
        | other msg => exact le_refl 1

/-- Witness for C2 at the default configuration. -/
theorem condense_passthrough_witness :
    extract defaultCondenserConfig (fun _ _ => Except.ok []) []
        (List.replicate 2000 'x') = (Except.ok (List.replicate 2000 'x'), 0) ∧
    1 ≤ (extract defaultCondenserConfig (fun _ _ => Except.ok []) []
        (List.replicate 2001 'x')).2 := by
  constructor
  · exact (condense_passthrough defaultCondenserConfig (fun _ _ => Except.ok []) []
      (List.replicate 2000 'x')).2.1 (List.length_replicate 2000 'x')
  · exact (condense_passthrough defaultCondenserConfig (fun _ _ => Except.ok []) []
      (List.replicate 2001 'x')).2.2.1 (List.length_replicate 2001 'x')

/-- Claim C3: above the threshold, when the single-pass extraction call
raises, the condenser falls back to the chunked path exactly when the
exception is one of the three recognized size-related classes
(context-window overflow, max tokens, or a `ClientError` whose code is
`ValidationException` or `ModelErrorException`); every other exception
propagates to the caller unchanged. -/
theorem condense_error_policy (cfg : CondenserConfig) (m : Model)
    (sysPrompt content : List Char) (e : PyErr)
    (hlen : cfg.passthroughThreshold < content.length)
    (hm : m sysPrompt content = Except.error e) :
    (isSizeRelated e = false →
      extract cfg m sysPrompt content = (Except.error e, 1)) ∧
    (isSizeRelated e = true →
      extract cfg m sysPrompt content =
        (Except.ok (chunked_extract cfg m sysPrompt content).1,
         1 + (chunked_extract cfg m sysPrompt content).2)) ∧
    (isSizeRelated e = true ↔
      e = PyErr.contextWindowOverflow ∨ e = PyErr.maxTokensReached ∨
      ∃ code, e = PyErr.clientError code ∧
        (code = "ValidationException".toList ∨ code = "ModelErrorException".toList)) := by
  have hn : ¬ content.length ≤ cfg.passthroughThreshold := by omega
  unfold extract
  rw [if_neg hn, hm]
  cases e with
  | contextWindowOverflow => simp [isSizeRelated]
  | maxTokensReached => simp [isSizeRelated]
  | clientError code =>
      by_cases hc : code ∈ sizeErrorCodes
      · have hcv : code = "ValidationException".toList ∨ code = "ModelErrorException".toList := by
          simpa [sizeErrorCodes] using hc
        refine ⟨?_, fun _ => ?_, ?_⟩
        · intro hfalse
          simp [isSizeRelated, hc] at hfalse
        · simp [hc]
        · constructor
          · intro _
            exact Or.inr (Or.inr ⟨code, rfl, hcv⟩)
          · intro _
            simp [isSizeRelated, hc]
      · have hcv :
            ¬ (code = "ValidationException".toList ∨ code = "ModelErrorException".toList) := by
          simpa [sizeErrorCodes] using hc
        refine ⟨fun _ => ?_, ?_, ?_⟩
        · simp [hc]
        · intro htrue
          simp [isSizeRelated, hc] at htrue
        · constructor
          · intro htrue
            simp [isSizeRelated, hc] at htrue
          · rintro (h | h | ⟨c, hceq, hcv2⟩)
            · exact absurd h (by simp)
            · exact absurd h (by simp)
            · cases PyErr.clientError.inj hceq
              exact absurd hcv2 hcv
  | other msg => simp [isSizeRelated]

/-- A model double that always raises a non-size-related provider error. -/
def modelDenied : Model :=
  fun _ _ => Except.error (PyErr.clientError "AccessDeniedException".toList)

/-- A model double that always raises a context-window overflow. -/
def modelOverflow : Model := fun _ _ => Except.error PyErr.contextWindowOverflow

/-- A small configuration for concrete witnesses. -/
def cfgSmall : CondenserConfig :=
  { passthroughThreshold := 1, chunkSize := 2, maxChunks := 5 }

/-- Witness for C3: a non-size `ClientError` propagates; an overflow routes
the result through the chunked path. -/
theorem condense_error_policy_witness :
    extract cfgSmall modelDenied [] "ab".toList =
      (Except.error (PyErr.clientError "AccessDeniedException".toList), 1) ∧
    extract cfgSmall modelOverflow [] "ab".toList =
      (Except.ok (chunked_extract cfgSmall modelOverflow [] "ab".toList).1,
       1 + (chunked_extract cfgSmall modelOverflow [] "ab".toList).2) := by
  constructor
  · exact (condense_error_policy cfgSmall modelDenied [] "ab".toList
      (PyErr.clientError "AccessDeniedException".toList) (by decide) rfl).1 (by decide)
  · exact (condense_error_policy cfgSmall modelOverflow [] "ab".toList
      PyErr.contextWindowOverflow (by decide) rfl).2.1 (by decide)

/-- Claim C7: the chunked fallback processes at most `MAX_CHUNKS` chunks
(the chunk list is capped, content beyond the cap is dropped), makes one
model call per processed chunk plus one merge call exactly when the
concatenated chunk results exceed the passthrough threshold, and therefore
performs at most `MAX_CHUNKS + 1` model calls in total. -/
theorem chunked_call_cap (cfg : CondenserConfig) (m : Model)
    (sysPrompt content : List Char) :
    (condenserChunks cfg content).length ≤ cfg.maxChunks ∧
    (chunked_extract cfg m sysPrompt content).2 =
      (condenserChunks cfg content).length +
        (if (condenserCombined cfg m sysPrompt content).length ≤ cfg.passthroughThreshold
          then 0 else 1) ∧
    (chunked_extract cfg m sysPrompt content).2 ≤ cfg.maxChunks + 1 ∧
    defaultCondenserConfig.maxChunks = 5 := by
  have h1 : (condenserChunks cfg content).length ≤ cfg.maxChunks := by
    simp [condenserChunks, List.length_take]
  have h2 : (chunked_extract cfg m sysPrompt content).2 =
      (condenserChunks cfg content).length +
        (if (condenserCombined cfg m sysPrompt content).length ≤ cfg.passthroughThreshold
          then 0 else 1) := by
    unfold chunked_extract
    by_cases hc :
        (condenserCombined cfg m sysPrompt content).length ≤ cfg.passthroughThreshold
    · simp [hc]
    · cases hm : m mergeInstructions (condenserCombined cfg m sysPrompt content) <;>
        simp [hc, hm]
  refine ⟨h1, h2, ?_, rfl⟩
  rw [h2]
  split <;> omega

/-- Claim C5: in the chunked fallback, a chunk whose extraction call raises
contributes an explicit `[Chunk i could not be processed]` placeholder to
the combined output at the position of that chunk, every successfully
extracted chunk contributes its result at its own position (the starting
offsets `sumLens first-j-results + 2*j` grow strictly with the chunk index,
so results appear in source order), and when the final merge call raises the
chunked fallback returns the raw concatenation instead of propagating the
exception. -/
theorem chunk_failure_policy (cfg : CondenserConfig) (m : Model)
    (sysPrompt content : List Char) (A : List (List Char)) (c : List Char)
    (B : List (List Char))
    (hdec : condenserChunks cfg content = A ++ c :: B)
    (e : PyErr) (hfail : m sysPrompt c = Except.error e) :
    (∃ pre post,
        condenserCombined cfg m sysPrompt content =
          pre ++ placeholderText (A.length + 1) ++ post ∧
        pre.length = sumLens (chunkResultsFrom m sysPrompt 0 A) + 2 * A.length) ∧
    (∀ (A' : List (List Char)) (c' : List Char) (B' : List (List Char)),
        condenserChunks cfg content = A' ++ c' :: B' →
        ∀ r, m sysPrompt c' = Except.ok r →
        ∃ pre post,
          condenserCombined cfg m sysPrompt content = pre ++ r ++ post ∧
          pre.length = sumLens (chunkResultsFrom m sysPrompt 0 A') + 2 * A'.length) ∧
    (cfg.passthroughThreshold < (condenserCombined cfg m sysPrompt content).length →
      ∀ e2, m mergeInstructions (condenserCombined cfg m sysPrompt content) =
          Except.error e2 →
        (chunked_extract cfg m sysPrompt content).1 =
          condenserCombined cfg m sysPrompt content) := by
  refine ⟨?_, ?_, ?_⟩
  · have hres : chunkResultsFrom m sysPrompt 0 (condenserChunks cfg content) =
        chunkResultsFrom m sysPrompt 0 A ++
          placeholderText (A.length + 1) :: chunkResultsFrom m sysPrompt (A.length + 1) B := by
      rw [hdec, chunkResultsFrom_append]
      simp [chunkResultsFrom, hfail]
    obtain ⟨pre, post, heq, hlen⟩ :=
      joinSep_decomp sepNN (placeholderText (A.length + 1))
        (chunkResultsFrom m sysPrompt 0 A) (chunkResultsFrom m sysPrompt (A.length + 1) B)
    refine ⟨pre, post, ?_, ?_⟩
    · rw [condenserCombined, hres, heq]
    · rw [hlen, chunkResultsFrom_length]
      simp [sepNN]
  · intro A' c' B' hdec' r hok
    have hres : chunkResultsFrom m sysPrompt 0 (condenserChunks cfg content) =
        chunkResultsFrom m sysPrompt 0 A' ++
          r :: chunkResultsFrom m sysPrompt (A'.length + 1) B' := by
      rw [hdec', chunkResultsFrom_append]
      simp [chunkResultsFrom, hok]
    obtain ⟨pre, post, heq, hlen⟩ :=
      joinSep_decomp sepNN r
        (chunkResultsFrom m sysPrompt 0 A') (chunkResultsFrom m sysPrompt (A'.length + 1) B')
    refine ⟨pre, post, ?_, ?_⟩
    · rw [condenserCombined, hres, heq]
    · rw [hlen, chunkResultsFrom_length]
      simp [sepNN]
  · intro hbig e2 hmerge
    have hn : ¬ (condenserCombined cfg m sysPrompt content).length ≤
        cfg.passthroughThreshold := by omega
    unfold chunked_extract
    rw [if_neg hn, hmerge]

/-- A scripted model for the C5 witness: the first chunk fails, the second
succeeds, and the merge call fails. -/
def modelChunkFail : Model := fun _ input =>
  if input = "ab".toList then Except.error (PyErr.other "boom".toList)
  else if input = "cd".toList then Except.ok "RESULT-CD".toList
  else Except.error (PyErr.other "mergefail".toList)

/-- A tiny configuration forcing two chunks and a merge attempt. -/
def cfgTwoChunks : CondenserConfig :=
  { passthroughThreshold := 5, chunkSize := 2, maxChunks := 5 }

/-- Witness for C5: with a failing first chunk and failing merge, the
output is the raw concatenation and contains the chunk-1 placeholder. -/
theorem chunk_failure_policy_witness :
    (∃ pre post,
        condenserCombined cfgTwoChunks modelChunkFail [] "abcd".toList =
          pre ++ placeholderText 1 ++ post ∧
        pre.length = sumLens (chunkResultsFrom modelChunkFail [] 0 []) + 2 * 0) ∧
    (chunked_extract cfgTwoChunks modelChunkFail [] "abcd".toList).1 =
      condenserCombined cfgTwoChunks modelChunkFail [] "abcd".toList := by
  have h := chunk_failure_policy cfgTwoChunks modelChunkFail [] "abcd".toList
    [] "ab".toList ["cd".toList] (by decide) (PyErr.other "boom".toList) (by decide)
  exact ⟨h.1, h.2.2 (by decide) (PyErr.other "mergefail".toList) (by decide)⟩

/-! ### Claim theorems: verdict resolution -/

/-- Claim C4: the CLI verdict resolver implements exactly the policy of
spec §4.4 — the embedding of `_extract_verdict` from `cli.py` agrees with
the transcription of the spec's policy on every review text and strictness
flag. -/
theorem cli_verdict_policy (t : List Char) (strict : Bool) :
    extract_verdict_cli t strict = resolve_verdict_spec t strict := by
  unfold extract_verdict_cli resolve_verdict_spec
  simp only [EXIT_SUCCESS, EXIT_HIGH_RISK]
  split_ifs <;> simp_all

/-- Claim C6: verdict extraction in the parser looks at the 100 characters
after the last occurrence of "verdict" in the lowered text and applies the
precedence fail > pass-with-concerns > pass; without a "verdict" token the
result is UNKNOWN. -/
theorem verdict_precedence (t : List Char) :
    (isSubstr "verdict".toList (pyLower t) = true →
      extract_verdict t =
        (if isSubstr "fail".toList
              ((pySplitLastAfter "verdict".toList (pyLower t)).take 100) = true then
            "FAIL".toList
          else if isSubstr "pass with concerns".toList
              ((pySplitLastAfter "verdict".toList (pyLower t)).take 100) = true then
            "PASS WITH CONCERNS".toList
          else if isSubstr "pass".toList
              ((pySplitLastAfter "verdict".toList (pyLower t)).take 100) = true then
            "PASS".toList
          else "UNKNOWN".toList)) ∧
    (isSubstr "verdict".toList (pyLower t) = false →
      extract_verdict t = "UNKNOWN".toList) := by
  constructor
  · intro h
    simp only [extract_verdict, h, eq_self_iff_true, if_true]
  · intro h
    simp only [extract_verdict, h, Bool.false_eq_true, if_false]

/-- Witness for C6 at the spec's own examples. -/
theorem verdict_precedence_witness :
    extract_verdict "Verdict: FAIL because of security".toList = "FAIL".toList ∧
    extract_verdict "Verdict: PASS WITH CONCERNS due to latency".toList =
      "PASS WITH CONCERNS".toList := by
  constructor
  · exact ((verdict_precedence "Verdict: FAIL because of security".toList).1
      (by decide)).trans (by decide)
  · exact ((verdict_precedence "Verdict: PASS WITH CONCERNS due to latency".toList).1
      (by decide)).trans (by decide)

/-- Claim C10: when "verdict" occurs but the 100-character window after its
last occurrence contains none of "fail", "pass with concerns", "pass", the
parser's verdict is UNKNOWN — UNKNOWN is not limited to inputs lacking the
token. -/
theorem verdict_unknown_window (t : List Char)
    (hv : isSubstr "verdict".toList (pyLower t) = true)
    (h1 : isSubstr "fail".toList
        ((pySplitLastAfter "verdict".toList (pyLower t)).take 100) = false)
    (h2 : isSubstr "pass with concerns".toList
        ((pySplitLastAfter "verdict".toList (pyLower t)).take 100) = false)
    (h3 : isSubstr "pass".toList
        ((pySplitLastAfter "verdict".toList (pyLower t)).take 100) = false) :
    extract_verdict t = "UNKNOWN".toList := by
  simp only [extract_verdict, hv, h1, h2, h3, eq_self_iff_true, if_true,
    Bool.false_eq_true, if_false]

/-- Witness for C10: "Verdict: TBD" contains the token but no keyword in
the window, and resolves to UNKNOWN. -/
theorem verdict_unknown_window_witness :
    extract_verdict "Verdict: TBD".toList = "UNKNOWN".toList :=
  verdict_unknown_window "Verdict: TBD".toList (by decide) (by decide) (by decide) (by decide)

/-! ### Claim theorems: finding parser -/

/-- Claim C1 counterexample: the same bulleted gap line under a `## Gaps`
heading in both the review text and the gaps context yields TWO gap
records, not one — `_extract_gaps` applies no dedup in its two-source scan
loop. -/
theorem gap_dedup_counterexample :
    extract_gaps "## Gaps\n- Missing authentication".toList
        "## Gaps\n- Missing authentication".toList =
      [{ id := "gap-1".toList, description := "Missing authentication".toList,
         severity := "medium".toList },
       { id := "gap-2".toList, description := "Missing authentication".toList,
         severity := "medium".toList }] := by decide

/-- Claim C1 amended: a gap line appearing under a recognized gaps heading
in both sources yields two Gap records (no dedup across the two gap
sources); the 50-char-prefix dedup rule does suppress duplicates in the
risk scan (the same risk line in both sources yields exactly one Risk
record) and in the "Features Not Found" pass (a bullet there that repeats
an already-collected gap is skipped). -/
theorem gap_dedup_amended :
    (extract_gaps "## Gaps\n- Missing authentication".toList
        "## Gaps\n- Missing authentication".toList).length = 2 ∧
    (extract_risks "## Top Risks\n- Data loss potential".toList
        "## Top Risks\n- Data loss potential".toList).map Risk.description =
      ["Data loss potential".toList] ∧
    (extract_gaps
        "## Gaps\n- Rate limiting missing\n## Features Not Found\n- Rate limiting missing".toList
        []).map Gap.description = ["Rate limiting missing".toList] := by
  refine ⟨by decide, by decide, by decide⟩

/-- Claim C8 counterexample: a candidate whose stripped description is
exactly 10 characters long is NOT retained — the source filters use the
strict comparison `len(text) > 10`. -/
theorem min_length_counterexample :
    ("abcdefghij".toList.length = 10) ∧
    extract_risks "## Top Risks\n- abcdefghij".toList [] = [] ∧
    extract_recommendations "## Recommendations\n- abcdefghij".toList = [] := by
  refine ⟨by decide, by decide, by decide⟩

/-- Every risk the scan retains has a description longer than 10
characters: one loop iteration preserves the property. -/
lemma riskLineStep_min_length (st : RiskScan) (line : List Char)
    (h : ∀ r ∈ st.risks, 10 < r.description.length) :
    ∀ r ∈ (riskLineStep st line).risks, 10 < r.description.length := by
  intro r hr
  simp only [riskLineStep] at hr
  split_ifs at hr with h1 h2 h3 h4 h5
  · exact h r hr
  · exact h r hr
  · rcases List.mem_append.mp hr with hmem | hmem
    · exact h r hmem
    · rcases List.mem_singleton.mp hmem with rfl
      simp only [List.length_take]
      omega
  · exact h r hr
  · exact h r hr
  · exact h r hr

/-- The min-length property is preserved by the whole risk scan. -/
lemma foldl_riskLineStep_min_length (st : RiskScan)
    (h : ∀ r ∈ st.risks, 10 < r.description.length) :
    ∀ lines : List (List Char),
      ∀ r ∈ (lines.foldl riskLineStep st).risks, 10 < r.description.length := by
  intro lines
  induction lines generalizing st with
  | nil => exact fun r hr => h r hr
  | cons l ls ih =>
      intro r hr
      exact ih (riskLineStep st l) (riskLineStep_min_length st l h) r hr

/-- Every recommendation the scan retains is longer than 10 characters:
one loop iteration preserves the property. -/
lemma recLineStep_min_length (st : RecScan) (line : List Char)
    (h : ∀ s ∈ st.recs, 10 < s.length) :
    ∀ s ∈ (recLineStep st line).recs, 10 < s.length := by
  intro s hs
  simp only [recLineStep] at hs
  split_ifs at hs with h1 h2 h3 h4 h5
  · exact h s hs
  · exact h s hs
  · rcases List.mem_append.mp hs with hmem | hmem
    · exact h s hmem
    · rcases List.mem_singleton.mp hmem with rfl
      simp only [List.length_take]
      omega
  · exact h s hs
  · exact h s hs
  · exact h s hs

/-- The min-length property is preserved by the whole recommendation scan. -/
lemma foldl_recLineStep_min_length (st : RecScan)
    (h : ∀ s ∈ st.recs, 10 < s.length) :
    ∀ lines : List (List Char),
      ∀ s ∈ (lines.foldl recLineStep st).recs, 10 < s.length := by
  intro lines
  induction lines generalizing st with
  | nil => exact fun s hs => h s hs
  | cons l ls ih =>
      intro s hs
      exact ih (recLineStep st l) (recLineStep_min_length st l h) s hs

/-- Claim C8 amended: within an open risk or recommendation section a
candidate is retained only if its stripped description is strictly longer
than 10 characters; an exactly-10-character description is dropped and an
11-character one is retained. -/
theorem min_length_amended :
    (∀ (review ctx : List Char) (r : Risk), r ∈ extract_risks review ctx →
      10 < r.description.length) ∧
    (∀ (review : List Char) (s : List Char), s ∈ extract_recommendations review →
      10 < s.length) ∧
    (extract_risks "## Top Risks\n- abcdefghijk".toList []).map Risk.description =
      ["abcdefghijk".toList] ∧
    extract_recommendations "## Recommendations\n- abcdefghijk".toList =
      ["abcdefghijk".toList] := by
  refine ⟨?_, ?_, by decide, by decide⟩
  · intro review ctx r hr
    unfold extract_risks at hr
    have hr' := List.take_subset 10 _ hr
    have h0 : ∀ x ∈ (⟨[], 1, false⟩ : RiskScan).risks, 10 < x.description.length :=
      fun x hx => absurd hx (List.not_mem_nil x)
    have h1 := foldl_riskLineStep_min_length _ h0 (splitLines review)
    exact foldl_riskLineStep_min_length
      { risks := (List.foldl riskLineStep ⟨[], 1, false⟩ (splitLines review)).risks,
        riskId := (List.foldl riskLineStep ⟨[], 1, false⟩ (splitLines review)).riskId,
        inSection := false }
      (fun x hx => h1 x hx) (splitLines ctx) r hr'
  · intro review s hs
    unfold extract_recommendations at hs
    have hs' := List.take_subset 10 _ hs
    have h0 : ∀ x ∈ (⟨[], false⟩ : RecScan).recs, 10 < x.length :=
      fun x hx => absurd hx (List.not_mem_nil x)
    exact foldl_recLineStep_min_length _ h0 (splitLines review) s hs'

/-- Witness for C8 (amended): the min-length bound applied to a concrete
retained risk. -/
theorem min_length_amended_witness :
    10 < ("Data loss potential".toList).length :=
  min_length_amended.1 "## Top Risks\n- Data loss potential".toList []
    { id := "risk-1".toList, description := "Data loss potential".toList,
      impact := "medium".toList } (by decide)

/-! ### No-op lemmas for heading-free inputs -/

/-- A line that opens no gaps section leaves a closed gap scan unchanged. -/
lemma gapLineStep_no_heading (st : GapScan) (line : List Char)
    (hh : isGapHeading line = false) (hs : st.inSection = false) :
    gapLineStep st line = st := by
  simp [gapLineStep, hh, hs]

/-- A gap scan over lines with no gaps heading is the identity. -/
lemma foldl_gapLineStep_no_heading (st : GapScan) (hs : st.inSection = false) :
    ∀ lines : List (List Char), (∀ l ∈ lines, isGapHeading l = false) →
      lines.foldl gapLineStep st = st := by
  intro lines
  induction lines with
  | nil => intro; rfl
  | cons l ls ih =>
      intro hh
      rw [List.foldl_cons, gapLineStep_no_heading st l (hh l (by simp)) hs]
      exact ih (fun x hx => hh x (by simp [hx]))

/-- A line that opens no "Features Not Found" section leaves a closed scan
unchanged. -/
lemma notFoundLineStep_no_heading (st : GapScan) (line : List Char)
    (hh : isNotFoundHeading line = false) (hs : st.inSection = false) :
    notFoundLineStep st line = st := by
  simp [notFoundLineStep, hh, hs]

/-- A "Features Not Found" scan over lines with no such heading is the
identity. -/
lemma foldl_notFoundLineStep_no_heading (st : GapScan) (hs : st.inSection = false) :
    ∀ lines : List (List Char), (∀ l ∈ lines, isNotFoundHeading l = false) →
      lines.foldl notFoundLineStep st = st := by
  intro lines
  induction lines with
  | nil => intro; rfl
  | cons l ls ih =>
      intro hh
      rw [List.foldl_cons, notFoundLineStep_no_heading st l (hh l (by simp)) hs]
      exact ih (fun x hx => hh x (by simp [hx]))

/-- A line that opens no risks section leaves a closed risk scan unchanged. -/
lemma riskLineStep_no_heading (st : RiskScan) (line : List Char)
    (hh : isRiskHeading line = false) (hs : st.inSection = false) :
    riskLineStep st line = st := by
  simp [riskLineStep, hh, hs]

/-- A risk scan over lines with no risks heading is the identity. -/
lemma foldl_riskLineStep_no_heading (st : RiskScan) (hs : st.inSection = false) :
    ∀ lines : List (List Char), (∀ l ∈ lines, isRiskHeading l = false) →
      lines.foldl riskLineStep st = st := by
  intro lines
  induction lines with
  | nil => intro; rfl
  | cons l ls ih =>
      intro hh
      rw [List.foldl_cons, riskLineStep_no_heading st l (hh l (by simp)) hs]
      exact ih (fun x hx => hh x (by simp [hx]))

/-- A line that opens no recommendations section leaves a closed scan
unchanged. -/
lemma recLineStep_no_heading (st : RecScan) (line : List Char)
    (hh : isRecHeading line = false) (hs : st.inSection = false) :
    recLineStep st line = st := by
  simp [recLineStep, hh, hs]

/-- A recommendation scan over lines with no recommendations heading is the
identity. -/
lemma foldl_recLineStep_no_heading (st : RecScan) (hs : st.inSection = false) :
    ∀ lines : List (List Char), (∀ l ∈ lines, isRecHeading l = false) →
      lines.foldl recLineStep st = st := by
  intro lines
  induction lines with
  | nil => intro; rfl
  | cons l ls ih =>
      intro hh
      rw [List.foldl_cons, recLineStep_no_heading st l (hh l (by simp)) hs]
      exact ih (fun x hx => hh x (by simp [hx]))

/-- Claim C9 counterexample: the input `"verdict: pass"` contains no
recognized section heading, and indeed yields empty gap, risk and
recommendation lists — but its verdict is PASS, not UNKNOWN, so "no
recognized section headings implies verdict UNKNOWN" fails on the code. -/
theorem parser_sectionless_counterexample :
    (∀ line ∈ splitLines "verdict: pass".toList,
        isGapHeading line = false ∧ isRiskHeading line = false ∧
        isRecHeading line = false ∧ isNotFoundHeading line = false) ∧
    extract_gaps "verdict: pass".toList [] = [] ∧
    extract_risks "verdict: pass".toList [] = [] ∧
    extract_recommendations "verdict: pass".toList = [] ∧
    extract_verdict "verdict: pass".toList = "PASS".toList ∧
    "PASS".toList ≠ "UNKNOWN".toList := by
  refine ⟨by decide, by decide, by decide, by decide, by decide, by decide⟩

/-- Claim C9 amended: the parser is total by construction (every embedded
extraction function is a total Lean function on arbitrary input strings),
an input whose lines contain no recognized section heading yields empty
gap, risk and recommendation lists, and the verdict is UNKNOWN provided
the text additionally does not contain the token "verdict". -/
theorem parser_no_headings (review gaps_ctx risks_ctx : List Char)
    (hrev : ∀ line ∈ splitLines review,
        isGapHeading line = false ∧ isRiskHeading line = false ∧
        isRecHeading line = false ∧ isNotFoundHeading line = false)
    (hg : ∀ line ∈ splitLines gaps_ctx, isGapHeading line = false)
    (hr : ∀ line ∈ splitLines risks_ctx, isRiskHeading line = false) :
    extract_gaps review gaps_ctx = [] ∧
    extract_risks review risks_ctx = [] ∧
    extract_recommendations review = [] ∧
    (isSubstr "verdict".toList (pyLower review) = false →
      extract_verdict review = "UNKNOWN".toList) := by
  refine ⟨?_, ?_, ?_, ?_⟩
  · have e1 : (splitLines review).foldl gapLineStep ⟨[], 1, false⟩ =
        (⟨[], 1, false⟩ : GapScan) :=
      foldl_gapLineStep_no_heading _ rfl _ (fun l hl => (hrev l hl).1)
    have e2 : (splitLines gaps_ctx).foldl gapLineStep
        { (splitLines review).foldl gapLineStep ⟨[], 1, false⟩ with inSection := false } =
        (⟨[], 1, false⟩ : GapScan) := by
      rw [e1]
      exact foldl_gapLineStep_no_heading _ rfl _ hg
    have e3 : (splitLines review).foldl notFoundLineStep
        { (splitLines gaps_ctx).foldl gapLineStep
            { (splitLines review).foldl gapLineStep ⟨[], 1, false⟩ with inSection := false }
          with inSection := false } = (⟨[], 1, false⟩ : GapScan) := by
      rw [e2]
      exact foldl_notFoundLineStep_no_heading _ rfl _ (fun l hl => (hrev l hl).2.2.2)
    have e5 : extract_gaps review gaps_ctx =
        ((if isSubstr "not found".toList (pyLower review) = true then
            (splitLines review).foldl notFoundLineStep
              { (splitLines gaps_ctx).foldl gapLineStep
                  { (splitLines review).foldl gapLineStep ⟨[], 1, false⟩ with
                    inSection := false }
                with inSection := false }
          else
            (splitLines gaps_ctx).foldl gapLineStep
              { (splitLines review).foldl gapLineStep ⟨[], 1, false⟩ with
                inSection := false } : GapScan)).gaps.take 20 := rfl
    rw [e5]
    by_cases hnf : isSubstr "not found".toList (pyLower review) = true
    · rw [if_pos hnf, e3]
      rfl
    · rw [if_neg hnf, e2]
      rfl
  · have e1 : (splitLines review).foldl riskLineStep ⟨[], 1, false⟩ =
        (⟨[], 1, false⟩ : RiskScan) :=
      foldl_riskLineStep_no_heading _ rfl _ (fun l hl => (hrev l hl).2.1)
    have e2 : (splitLines risks_ctx).foldl riskLineStep
        { (splitLines review).foldl riskLineStep ⟨[], 1, false⟩ with inSection := false } =
        (⟨[], 1, false⟩ : RiskScan) := by
      rw [e1]
      exact foldl_riskLineStep_no_heading _ rfl _ hr
    have e5 : extract_risks review risks_ctx =
        ((splitLines risks_ctx).foldl riskLineStep
          { (splitLines review).foldl riskLineStep ⟨[], 1, false⟩ with
            inSection := false }).risks.take 10 := rfl
    rw [e5, e2]
    rfl
  · have e1 : (splitLines review).foldl recLineStep ⟨[], false⟩ =
        (⟨[], false⟩ : RecScan) :=
      foldl_recLineStep_no_heading _ rfl _ (fun l hl => (hrev l hl).2.2.1)
    have e5 : extract_recommendations review =
        ((splitLines review).foldl recLineStep ⟨[], false⟩).recs.take 10 := rfl
    rw [e5, e1]
    rfl
  · intro h
    simp only [extract_verdict, h, Bool.false_eq_true, if_false]

/-- Witness for C9 (amended) on a concrete heading-free input. -/
theorem parser_no_headings_witness :
    extract_gaps "hello world\nnothing here".toList [] = [] ∧
    extract_risks "hello world\nnothing here".toList [] = [] ∧
    extract_recommendations "hello world\nnothing here".toList = [] ∧
    extract_verdict "hello world\nnothing here".toList = "UNKNOWN".toList := by
  have h := parser_no_headings "hello world\nnothing here".toList [] []
    (by decide) (by decide) (by decide)
  exact ⟨h.1, h.2.1, h.2.2.1, h.2.2.2 (by decide)⟩
